import Mathlib

/-!
Verification development for the raster subsystem of the Arion MCP servers
(`mcp-servers/geospatial-analysis/raster/`): spectral indices
(`spectral_indices.py`), focal/smoothing filters (`spatial_analysis.py`) and
band statistics (`raster_metadata.py`).

Modelling conventions:
* A cell value is `FVal := Option ℚ`; `none` models the floating NaN
  missing marker, `some q` a finite numeric value.  Rationals stand in for
  IEEE doubles: every arithmetic operation performed by the code either has
  a nonzero denominator or is guarded, so no infinities arise and exact
  arithmetic is faithful.
* Elementwise numpy array expressions are modelled per cell; a whole band is
  a `List FVal` (for order-insensitive statistics) or a function
  `Fin h → Fin w → FVal` (for window/neighborhood operations).
* numpy comparison semantics are kept: `NaN != 0` is true, so the
  `denominator != 0` masks in the index tools let NaN cells through, and the
  division then propagates NaN.
-/

/-- A float cell value: `none` is NaN (the missing marker), `some q` a finite
number. -/
abbrev FVal := Option ℚ

/-- NaN-propagating addition, as numpy `+` on float arrays. -/
def fadd : FVal → FVal → FVal
  | some a, some b => some (a + b)
  | _, _ => none

/-- NaN-propagating subtraction, as numpy `-` on float arrays. -/
def fsub : FVal → FVal → FVal
  | some a, some b => some (a - b)
  | _, _ => none

/-- NaN-propagating multiplication, as numpy `*` on float arrays. -/
def fmul : FVal → FVal → FVal
  | some a, some b => some (a * b)
  | _, _ => none

/-- NaN-propagating division, as numpy `/` on float arrays.  Division by a
present zero would give an infinity; it is unreachable in the index tools
because every division sits under a `denominator != 0` guard, and is mapped
to `none` here. -/
def fdiv : FVal → FVal → FVal
  | some a, some b => if b = 0 then none else some (a / b)
  | _, _ => none

/-- numpy elementwise `x != 0` on floats: true at NaN cells (IEEE `NaN != 0`
holds), `a ≠ 0` at numeric cells.  This is the `valid_pixels` mask of the
index tools. -/
def fneZero : FVal → Bool
  | none => true
  | some a => decide (a ≠ 0)

/-! ### Per-cell spectral index formulas (`spectral_indices.py`)

Each tool builds `denominator`, starts from an all-NaN output and writes
`numerator/denominator` only where `denominator != 0`.  Per cell that is:
if `fneZero denom` then the quotient else `none`. -/

/-- Per-cell NDVI of `calculate_ndvi`: `(nir - red) / (nir + red)` where the
denominator passes the `!= 0` mask, NaN otherwise. -/
def ndviCell (red nir : FVal) : FVal :=
  let denom := fadd nir red
  if fneZero denom then fdiv (fsub nir red) denom else none

/-- Per-cell EVI of `calculate_evi`:
`G * (nir - red) / (nir + C1*red - C2*blue + L)` under the `!= 0` mask. -/
def eviCell (G c1 c2 L : ℚ) (red nir blue : FVal) : FVal :=
  let denom := fadd (fsub (fadd nir (fmul (some c1) red)) (fmul (some c2) blue)) (some L)
  if fneZero denom then fdiv (fmul (some G) (fsub nir red)) denom else none

/-- Per-cell SAVI of `calculate_savi`:
`((nir - red) / (nir + red + L)) * (1 + L)` under the `!= 0` mask. -/
def saviCell (L : ℚ) (red nir : FVal) : FVal :=
  let denom := fadd (fadd nir red) (some L)
  if fneZero denom then fmul (fdiv (fsub nir red) denom) (some (1 + L)) else none

/-- Per-cell NDWI of `calculate_ndwi`: `(green - nir) / (green + nir)` under
the `!= 0` mask. -/
def ndwiCell (green nir : FVal) : FVal :=
  let denom := fadd green nir
  if fneZero denom then fdiv (fsub green nir) denom else none

/-- Per-cell MNDWI of `calculate_mndwi`: `(green - swir) / (green + swir)`
under the `!= 0` mask. -/
def mndwiCell (green swir : FVal) : FVal :=
  let denom := fadd green swir
  if fneZero denom then fdiv (fsub green swir) denom else none

/-- Result cells of `calculate_multiple_indices` at one pixel: NDVI, NDWI and
EVI (with the hard-coded parameters 2.5, 6.0, 7.5, 1.0) from the four bands. -/
structure MultiIndicesCell where
  ndvi : FVal
  ndwi : FVal
  evi : FVal
deriving DecidableEq, Repr

/-- Per-cell computation of `calculate_multiple_indices`. -/
def multiIndicesCell (red nir green blue : FVal) : MultiIndicesCell :=
  { ndvi := ndviCell red nir
    ndwi := ndwiCell green nir
    evi := eviCell 2.5 6 7.5 1 red nir blue }

/-! ### List statistics helpers

These model the numpy reductions used by `calculate_index_stats`,
`band_statistics`, `histogram_data` and `unique_values`, all of which are
order-insensitive reductions of the valid (non-NaN / unmasked) values. -/

/-- Minimum of a list of rationals (`np.min` / `np.ma.min`); `0` on the empty
list, which the code never reaches. -/
def listMin : List ℚ → ℚ
  | [] => 0
  | x :: xs => xs.foldl min x

/-- Maximum of a list of rationals (`np.max` / `np.ma.max`); `0` on the empty
list, which the code never reaches. -/
def listMax : List ℚ → ℚ
  | [] => 0
  | x :: xs => xs.foldl max x

/-- Arithmetic mean (`np.mean` / `np.nanmean` over the valid values). -/
def listMean (l : List ℚ) : ℚ :=
  l.sum / l.length

/-- Population variance (`np.std` / `np.nanstd` squared).  The code reports
the square root; the claims here concern only which cells are missing and
the summary shape, both unchanged by the square root (the variance of a
nonempty list is a finite nonnegative rational), so the rational variance
stands in for the IEEE standard deviation. -/
def listVar (l : List ℚ) : ℚ :=
  let m := listMean l
  (l.map (fun x => (x - m) ^ 2)).sum / l.length

/-- Insertion of one element into a list sorted by `le`. -/
def insertBy (le : α → α → Bool) (a : α) : List α → List α
  | [] => [a]
  | b :: bs => if le a b then a :: b :: bs else b :: insertBy le a bs

/-- Insertion sort by `le` (models numpy sorting; only the multiset of
elements matters to the claims). -/
def insSortBy (le : α → α → Bool) : List α → List α
  | [] => []
  | a :: as => insertBy le a (insSortBy le as)

/-- Linear-interpolation percentile, numpy's default method: index
`(n-1)·p/100` into the ascending sort, interpolating between the two
neighboring order statistics. -/
def percentileLinear (l : List ℚ) (p : ℚ) : ℚ :=
  let s := insSortBy (fun a b => decide (a ≤ b)) l
  let idx : ℚ := ((s.length : ℚ) - 1) * p / 100
  let lo := (⌊idx⌋).toNat
  let hi := (⌈idx⌉).toNat
  s.getD lo 0 + (s.getD hi 0 - s.getD lo 0) * (idx - ⌊idx⌋)

/-! ### NaN-aware window reducers (`np.nanmean`, `np.nanmin`, `np.nanmax`,
`np.nanstd` applied by `generic_filter` to each window) -/

/-- `np.nanmean`: mean of the non-NaN entries, NaN when all entries are NaN. -/
def nanmean (l : List FVal) : FVal :=
  let v := l.filterMap id
  if v = [] then none else some (listMean v)

/-- `np.nanmin`: minimum of the non-NaN entries, NaN when all are NaN. -/
def nanmin (l : List FVal) : FVal :=
  let v := l.filterMap id
  if v = [] then none else some (listMin v)

/-- `np.nanmax`: maximum of the non-NaN entries, NaN when all are NaN. -/
def nanmax (l : List FVal) : FVal :=
  let v := l.filterMap id
  if v = [] then none else some (listMax v)

/-- `np.nanstd` (squared, see `listVar`): variance of the non-NaN entries,
NaN when all are NaN. -/
def nanstd (l : List FVal) : FVal :=
  let v := l.filterMap id
  if v = [] then none else some (listVar v)

/-! ### Focal window machinery (`spatial_analysis.py`)

`generic_filter(data, reducer, footprint=ones(k,k), mode='reflect')` hands
each cell the k×k neighborhood around it, with out-of-range indices folded
back by scipy's `reflect` convention `(d c b a | a b c d | d c b a)` (the
edge value repeats as a mirror). -/

/-- Fold an integer index into `[0, 2n)` (the period of the reflect
convention). -/
def foldIdx (n : Nat) (i : Int) : Nat :=
  ((i % (2 * n) + 2 * n) % (2 * n)).toNat

/-- scipy `reflect` boundary: indices `..., -2, -1, 0, ..., n-1, n, n+1, ...`
map to `..., 1, 0, 0, ..., n-1, n-1, n-2, ...`. -/
def reflectIdx (n : Nat) (i : Int) : Nat :=
  if foldIdx n i < n then foldIdx n i else 2 * n - 1 - foldIdx n i

theorem reflectIdx_lt (n : Nat) (hn : 0 < n) (i : Int) : reflectIdx n i < n := by
  have h2 : (0 : Int) < 2 * (n : Int) := by omega
  have h0 : 0 ≤ (i % (2 * (n : Int)) + 2 * n) % (2 * n) :=
    Int.emod_nonneg _ (by omega)
  have h1 : (i % (2 * (n : Int)) + 2 * n) % (2 * n) < 2 * n :=
    Int.emod_lt_of_pos _ h2
  unfold reflectIdx foldIdx
  split <;> omega

/-- Reflected index as an element of `Fin h`. -/
def reflectFin {h : Nat} (i : Fin h) (d : Int) : Fin h :=
  ⟨reflectIdx h ((i : Int) + d), reflectIdx_lt h i.pos _⟩

/-- Window offsets `-k/2 .. k/2` (for odd `k = 2r+1`). -/
def offsets (k : Nat) : List Int :=
  (List.range k).map (fun a => (a : Int) - ((k / 2 : Nat) : Int))

/-- The k×k neighborhood values around `(i, j)` with reflected boundary, in
row-major order — the array `generic_filter` passes to the reducer. -/
def windowVals {h w : Nat} (g : Fin h → Fin w → FVal) (k : Nat)
    (i : Fin h) (j : Fin w) : List FVal :=
  (offsets k).flatMap (fun di =>
    (offsets k).map (fun dj => g (reflectFin i di) (reflectFin j dj)))

/-- Output cell of `focal_mean`. -/
def focalMean {h w : Nat} (g : Fin h → Fin w → FVal) (k : Nat)
    (i : Fin h) (j : Fin w) : FVal :=
  nanmean (windowVals g k i j)

/-- Output cell of `focal_min`. -/
def focalMin {h w : Nat} (g : Fin h → Fin w → FVal) (k : Nat)
    (i : Fin h) (j : Fin w) : FVal :=
  nanmin (windowVals g k i j)

/-- Output cell of `focal_max`. -/
def focalMax {h w : Nat} (g : Fin h → Fin w → FVal) (k : Nat)
    (i : Fin h) (j : Fin w) : FVal :=
  nanmax (windowVals g k i j)

/-- Output cell of `focal_std`. -/
def focalStd {h w : Nat} (g : Fin h → Fin w → FVal) (k : Nat)
    (i : Fin h) (j : Fin w) : FVal :=
  nanstd (windowVals g k i j)

/-! ### Gaussian smoothing (`gaussian_smooth` in `spatial_analysis.py`)

The scipy convolution `gaussian_filter` is an external collaborator; it is
modelled as an arbitrary total function on fully-populated (NaN-free) grids,
parameterized by sigma.  The tool's own logic — the sigma check, the mean
substitution at missing cells, and the mask restoration — is embedded
faithfully. -/

/-- Missing mask of a grid: `true` at valid cells (`~np.isnan`). -/
def gridMask {h w : Nat} (g : Fin h → Fin w → FVal) : Fin h → Fin w → Bool :=
  fun i j => (g i j).isSome

/-- All valid (non-NaN) values of a grid, row-major. -/
def gridValidVals {h w : Nat} (g : Fin h → Fin w → FVal) : List ℚ :=
  ((List.finRange h).flatMap (fun i =>
    (List.finRange w).map (fun j => g i j))).filterMap id

/-- The `gaussian_smooth` tool on one normalized band.  `gfilter` models
`scipy.ndimage.gaussian_filter` (sigma ↦ grid transform).  Mirrors the code:
reject `sigma <= 0`; start from an all-NaN output; if any cell is valid,
replace NaN cells by the grid's `np.nanmean`, convolve, and copy the
convolved values back at the originally-valid cells only. -/
def gaussianSmoothTool {h w : Nat}
    (gfilter : ℚ → (Fin h → Fin w → ℚ) → (Fin h → Fin w → ℚ))
    (sigma : ℚ) (g : Fin h → Fin w → FVal) :
    Except String (Fin h → Fin w → FVal) :=
  if sigma ≤ 0 then .error "Sigma must be positive."
  else .ok (
    if _hv : ∃ i j, (g i j).isSome then
      let m := listMean (gridValidVals g)
      let ft := gfilter sigma (fun i j => (g i j).getD m)
      fun i j => if (g i j).isSome then some (ft i j) else none
    else fun _ _ => none)

/-! ### Bounds reporting (`get_wgs84_bounds`, identical helper in all three
raster modules) -/

/-- A bounding box (left, bottom, right, top) as reported by rasterio. -/
structure RBounds where
  left : ℚ
  bottom : ℚ
  right : ℚ
  top : ℚ
deriving DecidableEq, Repr

/-- `get_wgs84_bounds`: when the source has a CRS, try `transform_bounds`
(modelled as the fallible function `tf`); on failure a warning is printed to
stderr and the original-system bounds are returned unchanged.  Without a CRS
the original bounds are returned. -/
def getWgs84Bounds (tf : RBounds → Except String RBounds) (hasCrs : Bool)
    (b : RBounds) : RBounds :=
  if hasCrs then
    match tf b with
    | .ok wb => wb
    | .error _ => b
  else b

/-- The keys of the result mapping built by `focal_mean`
(`calculate_filter_stats` contributes the first key, `result.update` the
rest).  No warning-related key is among them. -/
def focalMeanResultKeys : List String :=
  ["focal_mean_stats", "file_path", "band_number", "window_size",
   "filter_type", "bounds_wgs84"]

/-- The keys of the result mapping returned by `calculate_ndvi`. -/
def ndviResultKeys : List String :=
  ["ndvi_stats", "file_path", "red_band", "nir_band", "bounds_wgs84",
   "index_description"]

/-! ### Band statistics (`raster_metadata.py`) and index statistics
(`calculate_index_stats` in `spectral_indices.py`) -/

/-- Per-band summary of `band_statistics`: the five fields of the
all-masked branch plus the percentile triple of the populated branch. -/
structure BandStats where
  statMin : Option ℚ
  statMax : Option ℚ
  mean : Option ℚ
  std : Option ℚ
  count : Nat
  percentiles : Option (ℚ × ℚ × ℚ)
deriving DecidableEq, Repr

/-- One band of `band_statistics` on the masked read: if no cell is valid
(`data.count() == 0`) every numeric field is null and `count = 0`; otherwise
the masked reductions over the valid cells. -/
def bandStats (data : List FVal) : BandStats :=
  let valid := data.filterMap id
  if valid.length = 0 then
    { statMin := none, statMax := none, mean := none, std := none,
      count := 0, percentiles := none }
  else
    { statMin := some (listMin valid), statMax := some (listMax valid),
      mean := some (listMean valid), std := some (listVar valid),
      count := valid.length,
      percentiles := some (percentileLinear valid 25, percentileLinear valid 50,
        percentileLinear valid 75) }

/-- Summary produced by `calculate_index_stats` for an index grid. -/
structure IndexStats where
  statMin : Option ℚ
  statMax : Option ℚ
  mean : Option ℚ
  std : Option ℚ
  validPixels : Nat
  totalPixels : Nat
  percentiles : Option (ℚ × ℚ × ℚ)
deriving DecidableEq, Repr

/-- `calculate_index_stats`: if every cell is NaN (`np.all(np.isnan(...))`)
all numeric fields are null with `valid_pixels = 0`; otherwise the
reductions over the non-NaN cells. -/
def indexStats (arr : List FVal) : IndexStats :=
  if arr.all (fun c => c.isNone) then
    { statMin := none, statMax := none, mean := none, std := none,
      validPixels := 0, totalPixels := arr.length, percentiles := none }
  else
    let valid := arr.filterMap id
    { statMin := some (listMin valid), statMax := some (listMax valid),
      mean := some (listMean valid), std := some (listVar valid),
      validPixels := valid.length, totalPixels := arr.length,
      percentiles := some (percentileLinear valid 25, percentileLinear valid 50,
        percentileLinear valid 75) }

/-! ### Histogram (`histogram_data` in `raster_metadata.py`)

`np.histogram(data.compressed(), bins=bins)` over the valid values: the
range is `[min, max]` of the data (widened by ±1/2 when min = max, numpy's
degenerate-range rule), split into `bins` equal bins, the rightmost bin
closed.  In exact arithmetic the bin of `x` is
`min (bins-1) ⌊(x-lo)·bins/(hi-lo)⌋`.  numpy raises
`ValueError: bins must be positive` for `bins < 1`; the tool itself never
checks `bins`, so that error surfaces only when the histogram is computed,
after the band has been read. -/

/-- Bin index of `x` for `bins` equal bins over `[lo, hi]`, rightmost bin
closed (clamped to `bins - 1`). -/
def binIdx (lo hi : ℚ) (bins : Nat) (x : ℚ) : Nat :=
  min (bins - 1) (⌊(x - lo) * bins / (hi - lo)⌋).toNat

/-- Bin edges `linspace lo hi (bins+1)`. -/
def histEdges (lo hi : ℚ) (bins : Nat) : List ℚ :=
  (List.range (bins + 1)).map (fun j => lo + j * (hi - lo) / bins)

/-- Counts per bin: for each `j < bins`, the number of values whose bin
index is `j`. -/
def histCounts (lo hi : ℚ) (bins : Nat) (l : List ℚ) : List Nat :=
  (List.range bins).map (fun j => l.countP (fun x => binIdx lo hi bins x = j))

/-- Successful result mapping of `histogram_data` (file path and band number
omitted: request echoes, not computed data). -/
structure HistResult where
  histogram : List Nat
  binEdges : List ℚ
  totalPixels : Nat
  rangeMin : ℚ
  rangeMax : ℚ
deriving DecidableEq, Repr

/-- `histogram_data` on the masked band read: the all-masked band returns
the error mapping `"No valid data in band"`; a non-positive `bins` reaches
`np.histogram`, which raises; otherwise the numpy histogram over the valid
values. -/
def histogramData (data : List FVal) (bins : Int) : Except String HistResult :=
  let valid := data.filterMap id
  if valid.length = 0 then .error "No valid data in band"
  else if bins < 1 then .error "bins must be positive, when an integer"
  else
    let lo0 := listMin valid
    let hi0 := listMax valid
    let lo := if lo0 = hi0 then lo0 - 1/2 else lo0
    let hi := if lo0 = hi0 then hi0 + 1/2 else hi0
    .ok { histogram := histCounts lo hi bins.toNat valid,
          binEdges := histEdges lo hi bins.toNat,
          totalPixels := valid.length,
          rangeMin := lo0, rangeMax := hi0 }

/-! ### Unique values (`unique_values` in `raster_metadata.py`) -/

/-- Python list slice `l[:m]` for a possibly negative `m`. -/
def pySlice (m : Int) (l : List α) : List α :=
  if m < 0 then l.take (l.length - (-m).toNat) else l.take m.toNat

/-- `np.unique(l, return_counts=True)`: the distinct values in ascending
order, each with its multiplicity in `l`. -/
def uniqueCounts (l : List ℚ) : List (ℚ × Nat) :=
  (insSortBy (fun a b => decide (a ≤ b)) l.dedup).map (fun v => (v, l.count v))

/-- Successful result mapping of `unique_values`.  `returnedValues` is the
size of the `value_counts` dict, i.e. the number of distinct keys of the
returned pairs. -/
structure UniqueResult where
  totalUnique : Nat
  returnedValues : Nat
  truncated : Bool
  valueCounts : List (ℚ × Nat)
deriving DecidableEq, Repr

/-- `unique_values` on the masked band read.  The tool performs no check on
`max_unique`: when the distinct count exceeds it (always the case for
`max_unique ≤ 0` on a band with valid data) the pairs are sorted by count
descending (`np.argsort(counts)[::-1]`) and cut by the Python slice
`[:max_unique]`, and the result is returned with `truncated = True`. -/
def uniqueValues (data : List FVal) (maxUnique : Int) :
    Except String UniqueResult :=
  let valid := data.filterMap id
  if valid.length = 0 then .error "No valid data in band"
  else
    let pairs := uniqueCounts valid
    if maxUnique < (pairs.length : Int) then
      let chosen := pySlice maxUnique (insSortBy (fun a b => decide (b.2 ≤ a.2)) pairs)
      .ok { totalUnique := pairs.length,
            returnedValues := (chosen.map Prod.fst).dedup.length,
            truncated := true, valueCounts := chosen }
    else
      .ok { totalUnique := pairs.length,
            returnedValues := (pairs.map Prod.fst).dedup.length,
            truncated := false, valueCounts := pairs }

/-! ### Helper lemmas: NaN propagation of the float operations -/

theorem fadd_none_left (b : FVal) : fadd none b = none := by cases b <;> rfl

theorem fadd_none_right (a : FVal) : fadd a none = none := by cases a <;> rfl

theorem fsub_none_left (b : FVal) : fsub none b = none := by cases b <;> rfl

theorem fsub_none_right (a : FVal) : fsub a none = none := by cases a <;> rfl

theorem fmul_none_left (b : FVal) : fmul none b = none := by cases b <;> rfl

theorem fmul_none_right (a : FVal) : fmul a none = none := by cases a <;> rfl

theorem fdiv_none_left (b : FVal) : fdiv none b = none := by cases b <;> rfl

theorem fdiv_none_right (a : FVal) : fdiv a none = none := by cases a <;> rfl

/-! ### Claims about the spectral index tools -/

/-- C1: for every spectral-index operation (NDVI, EVI, SAVI, NDWI, MNDWI and
the combined multi-index tool) and every cell at which a required input band
is NaN after nodata normalization, the output cell is NaN: the band
arithmetic never turns a missing input into a numeric result. -/
theorem c1_missing_inputs_propagate (red nir green blue swir : FVal)
    (G c1 c2 L : ℚ) :
    ((red = none ∨ nir = none) → ndviCell red nir = none) ∧
    ((red = none ∨ nir = none ∨ blue = none) →
      eviCell G c1 c2 L red nir blue = none) ∧
    ((red = none ∨ nir = none) → saviCell L red nir = none) ∧
    ((green = none ∨ nir = none) → ndwiCell green nir = none) ∧
    ((green = none ∨ swir = none) → mndwiCell green swir = none) ∧
    ((red = none ∨ nir = none) →
      (multiIndicesCell red nir green blue).ndvi = none) ∧
    ((green = none ∨ nir = none) →
      (multiIndicesCell red nir green blue).ndwi = none) ∧
    ((red = none ∨ nir = none ∨ blue = none) →
      (multiIndicesCell red nir green blue).evi = none) := by
  have hndvi : ∀ r n : FVal, (r = none ∨ n = none) → ndviCell r n = none := by
    intro r n h
    rcases h with h | h <;> subst h <;>
      simp [ndviCell, fadd_none_left, fadd_none_right, fneZero,
        fdiv_none_left, fdiv_none_right, fsub_none_left, fsub_none_right]
  have hevi : ∀ (G c1 c2 L : ℚ) (r n b : FVal), (r = none ∨ n = none ∨ b = none) →
      eviCell G c1 c2 L r n b = none := by
    intro G c1 c2 L r n b h
    rcases h with h | h | h <;> subst h <;>
      simp [eviCell, fadd_none_left, fadd_none_right, fneZero,
        fmul_none_left, fmul_none_right, fdiv_none_left, fdiv_none_right,
        fsub_none_left, fsub_none_right]
  have hndwi : ∀ g n : FVal, (g = none ∨ n = none) → ndwiCell g n = none := by
    intro g n h
    rcases h with h | h <;> subst h <;>
      simp [ndwiCell, fadd_none_left, fadd_none_right, fneZero,
        fdiv_none_left, fdiv_none_right, fsub_none_left, fsub_none_right]
  refine ⟨hndvi red nir, hevi G c1 c2 L red nir blue, ?_, hndwi green nir, ?_,
    hndvi red nir, hndwi green nir, hevi 2.5 6 7.5 1 red nir blue⟩
  · intro h
    rcases h with h | h <;> subst h <;>
      simp [saviCell, fadd_none_left, fadd_none_right, fneZero,
        fmul_none_left, fmul_none_right, fdiv_none_left, fdiv_none_right,
        fsub_none_left, fsub_none_right]
  · intro h
    rcases h with h | h <;> subst h <;>
      simp [mndwiCell, fadd_none_left, fadd_none_right, fneZero,
        fdiv_none_left, fdiv_none_right, fsub_none_left, fsub_none_right]

/-- Witness for C1 at concrete cells: a missing RED makes the NDVI cell
missing, a missing BLUE makes the EVI cell missing. -/
theorem c1_missing_inputs_propagate_witness :
    ndviCell none (some 1) = none ∧ eviCell 2.5 6 7.5 1 (some 1) (some 2) none = none := by
  constructor
  · exact (c1_missing_inputs_propagate none (some 1) none none none 2.5 6 7.5 1).1
      (Or.inl rfl)
  · exact (c1_missing_inputs_propagate (some 1) (some 2) none none none 2.5 6 7.5 1).2.2.2.2.2.2.2
      (Or.inr (Or.inr rfl))

/-- C3: at every cell whose denominator evaluates to (a present) zero, every
spectral-index tool leaves the cell at its NaN initialization — the `!= 0`
mask excludes the cell, so the division is never performed there and no
infinity or error arises; in particular NDVI at RED = 0, NIR = 0 is missing. -/
theorem c3_zero_denominator_missing (red nir green blue swir : FVal)
    (G c1 c2 L : ℚ) :
    (fadd nir red = some 0 → ndviCell red nir = none) ∧
    (fadd (fsub (fadd nir (fmul (some c1) red)) (fmul (some c2) blue)) (some L) = some 0 →
      eviCell G c1 c2 L red nir blue = none) ∧
    (fadd (fadd nir red) (some L) = some 0 → saviCell L red nir = none) ∧
    (fadd green nir = some 0 → ndwiCell green nir = none) ∧
    (fadd green swir = some 0 → mndwiCell green swir = none) ∧
    (fadd nir red = some 0 → (multiIndicesCell red nir green blue).ndvi = none) ∧
    (fadd green nir = some 0 → (multiIndicesCell red nir green blue).ndwi = none) ∧
    ndviCell (some 0) (some 0) = none := by
  refine ⟨fun h => ?_, fun h => ?_, fun h => ?_, fun h => ?_, fun h => ?_,
    fun h => ?_, fun h => ?_, by norm_num [ndviCell, fadd, fneZero]⟩ <;>
    simp only [ndviCell, eviCell, saviCell, ndwiCell, mndwiCell,
      multiIndicesCell, h, fneZero] <;> simp

/-- Witness for C3 at concrete cells: RED = 1, NIR = -1 gives a zero NDVI
denominator and a missing output; SAVI with L = 1/2, RED = 1, NIR = -3/2
gives a zero denominator `nir + red + L` and a missing output. -/
theorem c3_zero_denominator_missing_witness :
    ndviCell (some 1) (some (-1)) = none ∧
    saviCell (1/2) (some 1) (some (-3/2)) = none := by
  constructor
  · exact (c3_zero_denominator_missing (some 1) (some (-1)) none none none
      2.5 6 7.5 1).1 (by norm_num [fadd])
  · exact (c3_zero_denominator_missing (some 1) (some (-3/2)) none none none
      2.5 6 7.5 (1/2)).2.2.1 (by norm_num [fadd])

/-- C7: at every cell where RED and NIR are valid, nonnegative and not both
zero, the NDVI cell is computed and `(NIR−RED)/(NIR+RED)` lies in `[-1, 1]`. -/
theorem c7_ndvi_bounded (r n : ℚ) (hr : 0 ≤ r) (hn : 0 ≤ n)
    (hnz : ¬(r = 0 ∧ n = 0)) :
    ndviCell (some r) (some n) = some ((n - r) / (n + r)) ∧
    -1 ≤ (n - r) / (n + r) ∧ (n - r) / (n + r) ≤ 1 := by
  have hpos : 0 < n + r := by
    rcases eq_or_lt_of_le (add_nonneg hn hr) with h | h
    · exact absurd ⟨by linarith, by linarith⟩ hnz
    · exact h
  have hne : n + r ≠ 0 := ne_of_gt hpos
  refine ⟨?_, ?_, ?_⟩
  · simp [ndviCell, fadd, fsub, fdiv, fneZero, hne]
  · rw [le_div_iff₀ hpos]; linarith
  · rw [div_le_one hpos]; linarith

/-- Witness for C7 at RED = 0, NIR = 3: NDVI is 1 and within bounds. -/
theorem c7_ndvi_bounded_witness :
    ndviCell (some 0) (some 3) = some ((3 - 0) / (3 + 0)) ∧
    -1 ≤ ((3 : ℚ) - 0) / (3 + 0) ∧ ((3 : ℚ) - 0) / (3 + 0) ≤ 1 :=
  c7_ndvi_bounded 0 3 (by norm_num) (by norm_num) (by norm_num)

/-! ### Claims about the spatial-analysis tools -/

theorem filterMap_id_eq_nil_iff (l : List FVal) :
    l.filterMap id = [] ↔ ∀ v ∈ l, v = none := by
  rw [List.filterMap_eq_nil_iff]
  simp [Option.isNone_iff_eq_none]

theorem nanmean_none_iff (l : List FVal) :
    nanmean l = none ↔ ∀ v ∈ l, v = none := by
  rw [← filterMap_id_eq_nil_iff]
  simp only [nanmean]
  by_cases hv : l.filterMap id = [] <;> simp [hv]

theorem nanmin_none_iff (l : List FVal) :
    nanmin l = none ↔ ∀ v ∈ l, v = none := by
  rw [← filterMap_id_eq_nil_iff]
  simp only [nanmin]
  by_cases hv : l.filterMap id = [] <;> simp [hv]

theorem nanmax_none_iff (l : List FVal) :
    nanmax l = none ↔ ∀ v ∈ l, v = none := by
  rw [← filterMap_id_eq_nil_iff]
  simp only [nanmax]
  by_cases hv : l.filterMap id = [] <;> simp [hv]

theorem nanstd_none_iff (l : List FVal) :
    nanstd l = none ↔ ∀ v ∈ l, v = none := by
  rw [← filterMap_id_eq_nil_iff]
  simp only [nanstd]
  by_cases hv : l.filterMap id = [] <;> simp [hv]

/-- C4: for every grid and every odd window size `k`, each focal reducer
(mean/min/max/std) works on the non-NaN values of the k×k reflected
neighborhood, and its output cell is NaN exactly when every neighborhood
value is NaN; at a cell that is itself missing, if the mirrored 3×3
neighborhood holds at least one valid value, focal mean returns the mean of
those valid values and is non-missing. -/
theorem c4_focal_reducers_missing_aware {h w : Nat}
    (g : Fin h → Fin w → FVal) (k : Nat) (_hk : k % 2 = 1)
    (i : Fin h) (j : Fin w) :
    (focalMean g k i j = none ↔ ∀ v ∈ windowVals g k i j, v = none) ∧
    (focalMin g k i j = none ↔ ∀ v ∈ windowVals g k i j, v = none) ∧
    (focalMax g k i j = none ↔ ∀ v ∈ windowVals g k i j, v = none) ∧
    (focalStd g k i j = none ↔ ∀ v ∈ windowVals g k i j, v = none) ∧
    ((windowVals g k i j).filterMap id ≠ [] →
      focalMean g k i j = some (listMean ((windowVals g k i j).filterMap id))) ∧
    (g i j = none → (windowVals g 3 i j).filterMap id ≠ [] →
      focalMean g 3 i j = some (listMean ((windowVals g 3 i j).filterMap id)) ∧
      focalMean g 3 i j ≠ none) := by
  refine ⟨nanmean_none_iff _, nanmin_none_iff _, nanmax_none_iff _,
    nanstd_none_iff _, fun hne => ?_, fun _ hne => ?_⟩
  · simp only [focalMean, nanmean]
    rw [if_neg hne]
  · have : focalMean g 3 i j = some (listMean ((windowVals g 3 i j).filterMap id)) := by
      simp only [focalMean, nanmean]
      rw [if_neg hne]
    exact ⟨this, by rw [this]; exact Option.some_ne_none _⟩

/-- The 2×2 grid `[[NaN, 6], [3, NaN]]` used as a concrete focal input. -/
def sampleGrid : Fin 2 → Fin 2 → FVal :=
  ![![none, some 6], ![some 3, none]]

/-- Witness for C4 on `sampleGrid` at the missing cell (0,0) with a 3×3
window. -/
theorem c4_focal_reducers_missing_aware_witness :
    (focalMean sampleGrid 3 0 0 = none ↔
      ∀ v ∈ windowVals sampleGrid 3 0 0, v = none) ∧
    (focalMin sampleGrid 3 0 0 = none ↔
      ∀ v ∈ windowVals sampleGrid 3 0 0, v = none) ∧
    (focalMax sampleGrid 3 0 0 = none ↔
      ∀ v ∈ windowVals sampleGrid 3 0 0, v = none) ∧
    (focalStd sampleGrid 3 0 0 = none ↔
      ∀ v ∈ windowVals sampleGrid 3 0 0, v = none) ∧
    ((windowVals sampleGrid 3 0 0).filterMap id ≠ [] →
      focalMean sampleGrid 3 0 0 =
        some (listMean ((windowVals sampleGrid 3 0 0).filterMap id))) ∧
    (sampleGrid 0 0 = none → (windowVals sampleGrid 3 0 0).filterMap id ≠ [] →
      focalMean sampleGrid 3 0 0 =
        some (listMean ((windowVals sampleGrid 3 0 0).filterMap id)) ∧
      focalMean sampleGrid 3 0 0 ≠ none) :=
  c4_focal_reducers_missing_aware sampleGrid 3 rfl 0 0

/-- C2: for every grid and every positive sigma, `gaussian_smooth` succeeds
and preserves the missing mask exactly; on an all-missing grid the output is
all-missing (the mean-substitution branch is skipped). -/
theorem c2_gaussian_mask_preserved {h w : Nat}
    (gfilter : ℚ → (Fin h → Fin w → ℚ) → (Fin h → Fin w → ℚ))
    (sigma : ℚ) (hs : 0 < sigma) (g : Fin h → Fin w → FVal) :
    ∃ out, gaussianSmoothTool gfilter sigma g = Except.ok out ∧
      gridMask out = gridMask g ∧
      ((∀ i j, g i j = none) → out = fun _ _ => none) := by
  unfold gaussianSmoothTool
  rw [if_neg (not_le.mpr hs)]
  refine ⟨_, rfl, ?_, ?_⟩
  · by_cases hv : ∃ i j, (g i j).isSome
    · rw [dif_pos hv]
      funext i j
      unfold gridMask
      by_cases hij : (g i j).isSome <;> simp [hij]
    · rw [dif_neg hv]
      push_neg at hv
      funext i j
      have hij := hv i j
      unfold gridMask
      simp only [Bool.not_eq_true] at hij
      simp [hij]
  · intro hall
    rw [dif_neg]
    rintro ⟨i, j, hij⟩
    rw [hall i j] at hij
    simp at hij

/-- A 2×2 grid with a single missing cell, concrete input for C2. -/
def sampleGrid2 : Fin 2 → Fin 2 → FVal :=
  ![![none, some 1], ![some 2, some 4]]

/-- Witness for C2: the identity stands in for the scipy convolution,
sigma = 1, on `sampleGrid2`. -/
theorem c2_gaussian_mask_preserved_witness :
    ∃ out, gaussianSmoothTool (fun _ t => t) 1 sampleGrid2 = Except.ok out ∧
      gridMask out = gridMask sampleGrid2 ∧
      ((∀ i j, sampleGrid2 i j = none) → out = fun _ _ => none) :=
  c2_gaussian_mask_preserved (fun _ t => t) 1 (by norm_num) sampleGrid2

/-! ### Claims about the statistics and metadata tools -/

/-- C8: over an all-missing band the statistics summaries are well-formed,
with `count = 0` (resp. `valid_pixels = 0`) and null min/max/mean/std, in
both `band_statistics` and `calculate_index_stats`; no error is raised. -/
theorem c8_all_missing_summary (data arr : List FVal)
    (hd : ∀ v ∈ data, v = none) (ha : ∀ v ∈ arr, v = none) :
    bandStats data =
      { statMin := none, statMax := none, mean := none,
        std := none, count := 0, percentiles := none } ∧
    indexStats arr =
      { statMin := none, statMax := none, mean := none,
        std := none, validPixels := 0, totalPixels := arr.length,
        percentiles := none } := by
  constructor
  · have hnil : data.filterMap id = [] := (filterMap_id_eq_nil_iff data).mpr hd
    simp [bandStats, hnil]
  · have hall : arr.all (fun c => c.isNone) = true := by
      rw [List.all_eq_true]
      intro x hx
      rw [ha x hx]
      rfl
    simp [indexStats, hall]

/-- Witness for C8 on the all-missing bands `[NaN, NaN]` and `[NaN]`. -/
theorem c8_all_missing_summary_witness :
    bandStats [none, none] =
      { statMin := none, statMax := none, mean := none,
        std := none, count := 0, percentiles := none } ∧
    indexStats [none] =
      { statMin := none, statMax := none, mean := none,
        std := none, validPixels := 0, totalPixels := 1,
        percentiles := none } :=
  c8_all_missing_summary [none, none] [none] (by simp) (by simp)

/-- C6 (counterexample to the claim as stated): when the bounds reprojection
fails, `get_wgs84_bounds` silently returns the original-system bounds and the
result mapping of the operation (here `focal_mean`) has no `"warning"` key —
the failure is only printed to stderr, the result does not carry a warning
field. -/
theorem c6_counterexample :
    getWgs84Bounds (fun _ => Except.error "proj failure") true
      ⟨0, 0, 1, 1⟩ = ⟨0, 0, 1, 1⟩ ∧
    "warning" ∉ focalMeanResultKeys ∧ "warning" ∉ ndviResultKeys := by
  refine ⟨rfl, ?_, ?_⟩ <;> simp [focalMeanResultKeys, ndviResultKeys]

/-- C6 (amended): for every request whose bounds reprojection fails, the
operation still succeeds — `get_wgs84_bounds` catches the failure and falls
back to the bounds in the original coordinate system — but the result only
gets a stderr log line, not a warning field: no result key is `"warning"`. -/
theorem c6_reprojection_fallback (tf : RBounds → Except String RBounds)
    (b : RBounds) (e : String) (hf : tf b = Except.error e) :
    getWgs84Bounds tf true b = b ∧
    "warning" ∉ focalMeanResultKeys ∧ "warning" ∉ ndviResultKeys := by
  refine ⟨?_, ?_, ?_⟩
  · simp [getWgs84Bounds, hf]
  · simp [focalMeanResultKeys]
  · simp [ndviResultKeys]

/-- Witness for C6 (amended) with a concrete always-failing transform. -/
theorem c6_reprojection_fallback_witness :
    getWgs84Bounds (fun _ => Except.error "could not transform") true
      ⟨0, 0, 1, 1⟩ = ⟨0, 0, 1, 1⟩ ∧
    "warning" ∉ focalMeanResultKeys ∧ "warning" ∉ ndviResultKeys :=
  c6_reprojection_fallback (fun _ => Except.error "could not transform")
    ⟨0, 0, 1, 1⟩ "could not transform" rfl

/-! ### Helper lemmas for `unique_values` -/

theorem insertBy_perm (le : α → α → Bool) (a : α) (l : List α) :
    (insertBy le a l).Perm (a :: l) := by
  induction l with
  | nil => exact List.Perm.refl _
  | cons b bs ih =>
    unfold insertBy
    by_cases hab : le a b
    · rw [if_pos hab]
    · rw [if_neg hab]
      exact (ih.cons b).trans (List.Perm.swap a b bs)

theorem insSortBy_perm (le : α → α → Bool) (l : List α) :
    (insSortBy le l).Perm l := by
  induction l with
  | nil => exact List.Perm.refl _
  | cons a as ih =>
    unfold insSortBy
    exact (insertBy_perm le a (insSortBy le as)).trans (ih.cons a)

theorem uniqueCounts_length (l : List ℚ) :
    (uniqueCounts l).length = l.dedup.length := by
  unfold uniqueCounts
  rw [List.length_map, (insSortBy_perm _ _).length_eq]

theorem uniqueCounts_keys (l : List ℚ) :
    (uniqueCounts l).map Prod.fst = insSortBy (fun a b => decide (a ≤ b)) l.dedup := by
  unfold uniqueCounts
  rw [List.map_map]
  simp [Function.comp_def]

/-- C9: on a band with at least one valid value, if `max_unique` is at least
the true distinct count of the valid values, `unique_values` returns
`truncated = false` and a returned-values count equal to that distinct
count. -/
theorem c9_unique_values_not_truncated (data : List FVal) (maxUnique : Int)
    (hne : data.filterMap id ≠ [])
    (hm : (((data.filterMap id).dedup.length : Nat) : Int) ≤ maxUnique) :
    ∃ r, uniqueValues data maxUnique = Except.ok r ∧
      r.truncated = false ∧
      r.returnedValues = (data.filterMap id).dedup.length ∧
      r.totalUnique = (data.filterMap id).dedup.length := by
  have hlen := uniqueCounts_length (data.filterMap id)
  have hguard : ¬ maxUnique < ((uniqueCounts (data.filterMap id)).length : Int) := by
    rw [hlen]; omega
  simp only [uniqueValues]
  rw [if_neg (by simpa using hne), if_neg hguard]
  refine ⟨_, rfl, rfl, ?_, hlen⟩
  have hnodup : (((uniqueCounts (data.filterMap id)).map Prod.fst)).Nodup := by
    rw [uniqueCounts_keys]
    exact ((insSortBy_perm _ _).nodup_iff).mpr (List.nodup_dedup _)
  rw [hnodup.dedup, List.length_map, hlen]

/-- Witness for C9 on the band `[1, 2, 1]` with `max_unique = 5`: two
distinct values, not truncated. -/
theorem c9_unique_values_not_truncated_witness :
    ∃ r, uniqueValues [some 1, some 2, some 1] 5 = Except.ok r ∧
      r.truncated = false ∧
      r.returnedValues = (([some 1, some 2, some 1] : List FVal).filterMap id).dedup.length ∧
      r.totalUnique = (([some 1, some 2, some 1] : List FVal).filterMap id).dedup.length :=
  c9_unique_values_not_truncated [some 1, some 2, some 1] 5
    (by simp) (by decide)

/-- C5 (counterexample to the claim as stated): `unique_values` with
`max_unique = 0` on the band `[1, 2]` is not rejected as an input error — it
reads the band and returns a normal (truncated, empty) result mapping. -/
theorem c5_counterexample :
    uniqueValues [some 1, some 2] 0 =
      Except.ok { totalUnique := 2, returnedValues := 0, truncated := true,
                  valueCounts := [] } := by
  rfl

/-- C5 (amended): neither tool validates its count parameter up front.
`histogram_data` with `bins ≤ 0` fails only inside `np.histogram`, after the
band has been read — and an all-missing band returns the `"No valid data"`
result before `bins` is ever looked at; `unique_values` with
`max_unique ≤ 0` is not rejected at all: on a band with valid data it
returns an ordinary truncated result. -/
theorem c5_no_parameter_validation (data : List FVal) (bins maxUnique : Int)
    (hbins : bins ≤ 0) (hmu : maxUnique ≤ 0) :
    (data.filterMap id ≠ [] →
      histogramData data bins =
        Except.error "bins must be positive, when an integer") ∧
    ((∀ v ∈ data, v = none) →
      histogramData data bins = Except.error "No valid data in band") ∧
    (data.filterMap id ≠ [] →
      ∃ r, uniqueValues data maxUnique = Except.ok r ∧ r.truncated = true) := by
  refine ⟨fun hne => ?_, fun hall => ?_, fun hne => ?_⟩
  · simp only [histogramData]
    rw [if_neg (by simpa using hne), if_pos (by omega)]
  · simp only [histogramData]
    rw [if_pos]
    simpa using (filterMap_id_eq_nil_iff data).mpr hall
  · have hpos : 1 ≤ (uniqueCounts (data.filterMap id)).length := by
      rw [uniqueCounts_length]
      have : (data.filterMap id).dedup ≠ [] := by
        simpa [List.dedup_eq_nil] using hne
      cases hd : (data.filterMap id).dedup with
      | nil => exact absurd hd this
      | cons a as => simp
    simp only [uniqueValues]
    rw [if_neg (by simpa using hne), if_pos (by omega)]
    exact ⟨_, rfl, rfl⟩

/-- Witness for C5 (amended) at `bins = 0`, `max_unique = -1` on the bands
`[1]` (valid data) and `[NaN]` (all missing). -/
theorem c5_no_parameter_validation_witness :
    ((([some 1] : List FVal).filterMap id ≠ [] →
      histogramData [some 1] 0 =
        Except.error "bins must be positive, when an integer") ∧
    ((∀ v ∈ ([some 1] : List FVal), v = none) →
      histogramData [some 1] 0 = Except.error "No valid data in band") ∧
    (([some 1] : List FVal).filterMap id ≠ [] →
      ∃ r, uniqueValues [some 1] (-1) = Except.ok r ∧ r.truncated = true)) ∧
    ((∀ v ∈ ([none] : List FVal), v = none) →
      histogramData [none] 0 = Except.error "No valid data in band") :=
  ⟨c5_no_parameter_validation [some 1] 0 (-1) (by norm_num) (by norm_num),
   (c5_no_parameter_validation [none] 0 (-1) (by norm_num) (by norm_num)).2.1⟩

/-! ### Helper lemmas for the histogram: each value lands in exactly one bin -/

theorem sum_map_add (l : List α) (f g : α → Nat) :
    (l.map (fun x => f x + g x)).sum = (l.map f).sum + (l.map g).sum := by
  induction l with
  | nil => rfl
  | cons a as ih =>
    simp only [List.map_cons, List.sum_cons, ih]
    omega

theorem sum_indicator_range (m n : Nat) (h : m < n) :
    ((List.range n).map (fun j => if m = j then (1 : Nat) else 0)).sum = 1 := by
  induction n with
  | zero => omega
  | succ k ih =>
    rw [List.range_succ, List.map_append, List.sum_append]
    by_cases hm : m = k
    · have h0 : ((List.range k).map (fun j => if m = j then (1 : Nat) else 0)).sum = 0 := by
        apply List.sum_eq_zero
        intro y hy
        simp only [List.mem_map] at hy
        obtain ⟨a, ha, rfl⟩ := hy
        have : a < k := List.mem_range.mp ha
        rw [if_neg (by omega)]
      rw [h0]
      simp [hm]
    · have hlt : m < k := by omega
      rw [ih hlt]
      simp [hm]

theorem sum_countP_range (f : α → Nat) (n : Nat) (l : List α)
    (hf : ∀ x ∈ l, f x < n) :
    ((List.range n).map (fun j => l.countP (fun x => f x = j))).sum = l.length := by
  induction l with
  | nil => simp
  | cons x xs ih =>
    have hx : f x < n := hf x (List.mem_cons_self x xs)
    have hxs : ∀ y ∈ xs, f y < n := fun y hy => hf y (List.mem_cons_of_mem x hy)
    simp only [List.countP_cons]
    have hsplit : ∀ j : Nat,
        xs.countP (fun y => decide (f y = j)) + (if decide (f x = j) = true then 1 else 0) =
        xs.countP (fun y => decide (f y = j)) + (if f x = j then 1 else 0) := by
      intro j
      by_cases hj : f x = j <;> simp [hj]
    simp only [hsplit]
    rw [sum_map_add]
    rw [ih hxs, sum_indicator_range (f x) n hx, List.length_cons]

/-- C10: on a band with at least one valid value and positive `bins`,
`histogram_data` succeeds, its bin counts sum exactly to the number of valid
cells, and its `total_pixels` field equals that same number — every valid
value falls into exactly one bin. -/
theorem c10_histogram_counts_sum (data : List FVal) (bins : Int)
    (hne : data.filterMap id ≠ []) (hb : 1 ≤ bins) :
    ∃ r, histogramData data bins = Except.ok r ∧
      r.histogram.sum = (data.filterMap id).length ∧
      r.totalPixels = (data.filterMap id).length := by
  simp only [histogramData]
  rw [if_neg (by simpa using hne), if_neg (by omega)]
  refine ⟨_, rfl, ?_, rfl⟩
  unfold histCounts
  apply sum_countP_range
  intro x _
  unfold binIdx
  have h1 : 1 ≤ bins.toNat := by omega
  exact lt_of_le_of_lt (Nat.min_le_left _ _) (by omega)

/-- Witness for C10 on the band `[1, 3, NaN]` with two bins. -/
theorem c10_histogram_counts_sum_witness :
    ∃ r, histogramData [some 1, some 3, none] 2 = Except.ok r ∧
      r.histogram.sum = (([some 1, some 3, none] : List FVal).filterMap id).length ∧
      r.totalPixels = (([some 1, some 3, none] : List FVal).filterMap id).length :=
  c10_histogram_counts_sum [some 1, some 3, none] 2 (by simp) (by norm_num)
